import Mathlib

/-!
Verification development for the Amazon Brand Store section processor
(`section_processor.py`).  The definitions below are a shallow embedding of
the data model and the operations of the `SectionProcessor` class: pure
Python functions become Lean functions, the mutable processing state
(`section_counter`, `sections_catalog`, `section_types`,
`processing_stats["errors"]`, `sections_extracted`) becomes an explicit
`PipelineState` threaded through folds, Python `int` becomes `Int`/`Nat`,
Python `float` arithmetic in `calculate_resize` and `round` is modelled with
exact rationals (`ℚ`), and fallible operations (file I/O, PIL exceptions,
`ZeroDivisionError`) are modelled with `Option` and explicit failure flags.
-/

namespace SectionProcessor

/-- The `coordinates` object of a section: `{x, y, width, height}` in source
image pixel space (`section_processor.py`, data model of the annotation
files; integers, possibly negative or out of bounds). -/
structure Coordinates where
  x : Int
  y : Int
  width : Int
  height : Int
deriving DecidableEq, Repr

/-- A validated section spec as consumed by phase 2: the required fields
`id`, `type`, `coordinates` (guaranteed present by `validate_annotation`). -/
structure SectionSpec where
  id : String
  type : String
  coordinates : Coordinates
deriving DecidableEq, Repr

/-- The result of one successful `crop_section_image` call: the clamped crop
rectangle plus the pixel dimensions of the medium and thumbnail derivatives
(source lines 204-256; the saved file paths are determined by the section id
and are not repeated here, the `dimensions` dictionary of the return value is
what the fields record). -/
structure CropResult where
  x : Int
  y : Int
  width : Int
  height : Int
  medium : Int × Int
  thumbnail : Int × Int
deriving DecidableEq, Repr

/-- A cataloged section: the section spec enriched by `crop_sections` with
`unique_id`, `source_file` and `cropped_files` metadata (source lines
176-185).  `cropped` keeps the clamped crop rectangle and derivative
dimensions; `coordinates` keeps the original annotated coordinates, which
`crop_sections` never mutates. -/
structure Extracted where
  id : String
  type : String
  coordinates : Coordinates
  unique_id : String
  source_file : String
  cropped : CropResult
deriving DecidableEq, Repr

/-- One annotation as processed by phase 2 (`crop_sections`, lines 155-194):
the resolved screenshot, its decoded pixel size (`img.size`), a flag
`openFail` modelling an exception while opening/decoding the screenshot
(caught at line 191, which logs an error and skips the whole annotation),
and the ordered section specs.  The `Bool` paired with each section models
whether cropping/saving that particular section raises an I/O exception
(caught inside `crop_section_image` at line 258, which returns `None`). -/
structure AnnotationRun where
  source_image : String
  imgWidth : Int
  imgHeight : Int
  openFail : Bool
  sections : List (SectionSpec × Bool)
deriving DecidableEq, Repr

/-- The mutable state of one processing run: `section_counter` (line 153),
the flat catalog `sections_catalog`, the insertion-ordered type grouping
`section_types` (a Python `defaultdict(list)`; Python dicts preserve key
insertion order, modelled as an association list), the process-wide error
log `processing_stats["errors"]`, and `sections_extracted`. -/
structure PipelineState where
  counter : Nat
  catalog : List Extracted
  groups : List (String × List Extracted)
  errors : List String
  sections_extracted : Nat
deriving DecidableEq, Repr

/-- `section["type"].lower().replace(" ", "_")` (line 201).  Python
`str.lower` lower-cases each character and `str.replace` with the
single-character pattern `" "` rewrites each space, so the composite acts
character-wise: lower-case, then map a space to an underscore.  (`.lower()`
of ASCII input is character-wise; `Char.toLower` covers the ASCII range). -/
def normalizeType (t : String) : String :=
  String.mk (t.data.map (fun c => if c.toLower = ' ' then '_' else c.toLower))

/-- The format specifier `{counter:04d}` (line 202): the decimal digits of
`counter`, left-padded with zeros to a minimum width of 4. -/
def pad4 (n : Nat) : String :=
  String.mk (List.replicate (4 - (Nat.repr n).length) '0') ++ Nat.repr n

/-- `generate_section_id` (lines 199-202): normalized type, underscore,
zero-padded counter. -/
def generate_section_id (s : SectionSpec) (counter : Nat) : String :=
  normalizeType s.type ++ "_" ++ pad4 counter

/-- Python `int()` applied to a (here: rational-valued) float: truncation
toward zero. -/
def pyInt (q : ℚ) : Int :=
  q.num.tdiv q.den

/-- `calculate_resize` (lines 262-273): uniform scale factor
`min(max_width / width, max_height / height, 1.0)` applied to both
dimensions and truncated with `int()`.  Python float arithmetic is modelled
with exact rationals. -/
def calculate_resize (original : Int × Int) (maxSize : Int × Int) : Int × Int :=
  let scale : ℚ := min ((maxSize.1 : ℚ) / (original.1 : ℚ))
    (min ((maxSize.2 : ℚ) / (original.2 : ℚ)) 1)
  (pyInt ((original.1 : ℚ) * scale), pyInt ((original.2 : ℚ) * scale))

/-- `crop_section_image` (lines 204-260): clamp `x` and `y` into the image,
reduce `width` and `height` so the box fits, fail (return `None`, printing
but not logging) on a degenerate box or on an I/O exception while cropping
or saving, and otherwise report the crop rectangle together with the medium
(max 400x300) and thumbnail (max 200x150) derivative dimensions, both
computed from the full crop. -/
def crop_section_image (imgW imgH : Int) (coords : Coordinates) (saveFail : Bool) :
    Option CropResult :=
  let x := max 0 (min coords.x imgW)
  let y := max 0 (min coords.y imgH)
  let w := min coords.width (imgW - x)
  let h := min coords.height (imgH - y)
  if w ≤ 0 ∨ h ≤ 0 then none
  else if saveFail then none
  else some ⟨x, y, w, h, calculate_resize (w, h) (400, 300), calculate_resize (w, h) (200, 150)⟩

/-- Appending a section to `self.section_types[section["type"]]` (line 185):
a `defaultdict(list)` keyed by the raw type string, preserving key insertion
order. -/
def addToGroups (gs : List (String × List Extracted)) (t : String) (e : Extracted) :
    List (String × List Extracted) :=
  match gs with
  | [] => [(t, [e])]
  | (k, v) :: rest => if k = t then (k, v ++ [e]) :: rest else (k, v) :: addToGroups rest t e

/-- The body of the per-section loop of `crop_sections` (lines 167-189):
generate the id from the current counter, attempt the crop, and on success
append the enriched section to the catalog and the type groups and advance
the counter; on failure (`crop_section_image` returned `None`) leave the
state untouched — nothing is appended to the error log. -/
def processSection (src : String) (imgW imgH : Int) (st : PipelineState)
    (p : SectionSpec × Bool) : PipelineState :=
  match crop_section_image imgW imgH p.1.coordinates p.2 with
  | none => st
  | some c =>
    ⟨st.counter + 1,
     st.catalog ++ [⟨p.1.id, p.1.type, p.1.coordinates,
       generate_section_id p.1 st.counter, src, c⟩],
     addToGroups st.groups p.1.type
       ⟨p.1.id, p.1.type, p.1.coordinates, generate_section_id p.1 st.counter, src, c⟩,
     st.errors,
     st.sections_extracted + 1⟩

/-- The per-annotation body of `crop_sections` (lines 155-194): an exception
while opening the screenshot aborts the annotation and appends one message
to the error log (lines 191-194); otherwise each section is processed in
order. -/
def processAnnotationRun (st : PipelineState) (a : AnnotationRun) : PipelineState :=
  if a.openFail then
    ⟨st.counter, st.catalog, st.groups,
     st.errors ++ ["Error processing " ++ a.source_image], st.sections_extracted⟩
  else
    a.sections.foldl (processSection a.source_image a.imgWidth a.imgHeight) st

/-- `crop_sections` (lines 149-197) over an arbitrary starting state. -/
def crop_sections (anns : List AnnotationRun) (st : PipelineState) : PipelineState :=
  anns.foldl processAnnotationRun st

/-- The state at the start of phase 2: `section_counter = 1` (line 153),
empty catalog, groups and phase-2 error log. -/
def initState : PipelineState :=
  ⟨1, [], [], [], 0⟩

/-- One full phase-2 run from the initial state. -/
def runCrop (anns : List AnnotationRun) : PipelineState :=
  crop_sections anns initState

/-- The `types_index` field of `generate_module_catalog` (lines 348-351):
each type group mapped to the `unique_id`s of its members. -/
def types_index (gs : List (String × List Extracted)) : List (String × List String) :=
  gs.map (fun g => (g.1, g.2.map (fun e => e.unique_id)))

/-- Helper for the reconstruction: insert one `unique_id` under its type
key, preserving key insertion order. -/
def addIdToGroups (gs : List (String × List String)) (t uid : String) :
    List (String × List String) :=
  match gs with
  | [] => [(t, [uid])]
  | (k, v) :: rest => if k = t then (k, v ++ [uid]) :: rest else (k, v) :: addIdToGroups rest t uid

/-- Reconstruction of a types index from the flat modules list alone, as the
spec's testable property demands: group the `unique_id`s of the flat list by
their raw `type`, in flat-list order. -/
def typesIndexOfModules (modules : List Extracted) : List (String × List String) :=
  modules.foldl (fun acc e => addIdToGroups acc e.type e.unique_id) []

/-- Lookup of one type group (`self.section_types[t]`); absent keys give the
empty list, matching `defaultdict(list)` reads. -/
def groupsLookup (gs : List (String × List Extracted)) (t : String) : List Extracted :=
  match gs with
  | [] => []
  | (k, v) :: rest => if k = t then v else groupsLookup rest t

/-- A raw section dictionary before validation: each of the required keys
`id`, `type`, `coordinates` may be absent (lines 123-129). -/
structure SectionData where
  id : Option String
  type : Option String
  coordinates : Option Coordinates
deriving DecidableEq, Repr

/-- A raw annotation dictionary before validation: each of the required
top-level keys `source_image`, `image_dimensions`, `sections` may be absent
(lines 107-121).  The `isinstance(annotation["sections"], list)` check of
line 118 is absorbed by the typing of `sections`. -/
structure AnnotationData where
  source_image : Option String
  image_dimensions : Option (Int × Int)
  sections : Option (List SectionData)
deriving DecidableEq, Repr

/-- The per-section part of `validate_annotation` (lines 123-129): walk the
sections in order checking `id`, `type`, `coordinates`; the first missing
field yields `False` together with the single error message appended to
`processing_stats["errors"]`. -/
def validateSections (i : Nat) (ss : List SectionData) (fname : String) :
    Bool × List String :=
  match ss with
  | [] => (true, [])
  | s :: rest =>
    if s.id = none then
      (false, ["Missing id in section " ++ Nat.repr i ++ " of " ++ fname])
    else if s.type = none then
      (false, ["Missing type in section " ++ Nat.repr i ++ " of " ++ fname])
    else if s.coordinates = none then
      (false, ["Missing coordinates in section " ++ Nat.repr i ++ " of " ++ fname])
    else validateSections (i + 1) rest fname

/-- `validate_annotation` (lines 107-131): check the top-level required
fields in order, then every section's required fields; the boolean verdict
plus the error messages appended to the process-wide error log during the
call (the Python method appends to `self.processing_stats["errors"]`
directly; the returned list holds exactly those appends). -/
def validate_annotation_data (a : AnnotationData) (fname : String) : Bool × List String :=
  if a.source_image = none then
    (false, ["Missing required field source_image in " ++ fname])
  else if a.image_dimensions = none then
    (false, ["Missing required field image_dimensions in " ++ fname])
  else
    match a.sections with
    | none => (false, ["Missing required field sections in " ++ fname])
    | some ss => validateSections 0 ss fname

/-- One annotation file as seen by `load_annotations`: its name, the parse
result (`none` models `json.load` raising, caught at line 99), and the
screenshot resolution result (`find_matching_screenshot`, an oracle for the
filesystem lookup of lines 133-147). -/
structure RawRecord where
  fileName : String
  parsed : Option AnnotationData
  screenshot : Option String
deriving DecidableEq, Repr

/-- The accumulating state of phase 1: `self.annotations` (each bound to its
resolved screenshot path), the process-wide error log, and
`files_processed`. -/
structure LoadState where
  annotations : List (AnnotationData × String)
  errors : List String
  files_processed : Nat
deriving DecidableEq, Repr

/-- The loop body of `load_annotations` (lines 79-102): a parse failure or a
validation failure or an unresolved screenshot appends error messages and
admits nothing; only a validated record with a resolved screenshot is
appended to `self.annotations`. -/
def loadOne (st : LoadState) (r : RawRecord) : LoadState :=
  match r.parsed with
  | none => ⟨st.annotations, st.errors ++ ["Error loading " ++ r.fileName], st.files_processed⟩
  | some a =>
    match validate_annotation_data a r.fileName with
    | (true, _) =>
      match r.screenshot with
      | some p => ⟨st.annotations ++ [(a, p)], st.errors, st.files_processed + 1⟩
      | none =>
        ⟨st.annotations,
         st.errors ++ ["No matching screenshot found for " ++ r.fileName],
         st.files_processed⟩
    | (false, es) => ⟨st.annotations, st.errors ++ es, st.files_processed⟩

/-- `load_annotations` (lines 67-105) over the discovered records. -/
def load_annotations (rs : List RawRecord) (st : LoadState) : LoadState :=
  rs.foldl loadOne st

/-- An annotation record missing one of the required top-level fields or one
of the required fields of some section (claim C7's hypothesis). -/
def hasMissingField (a : AnnotationData) : Prop :=
  a.source_image = none ∨ a.image_dimensions = none ∨ a.sections = none ∨
    (∃ ss, a.sections = some ss ∧
      ∃ s ∈ ss, s.id = none ∨ s.type = none ∨ s.coordinates = none)

/-- Python division `a / b`, which raises `ZeroDivisionError` when `b = 0`
(modelled as `none`). -/
def pyDiv (a b : ℚ) : Option ℚ :=
  if b = 0 then none else some (a / b)

/-- Python banker's rounding to the nearest integer (ties to even). -/
def roundHalfEven (q : ℚ) : Int :=
  if q - Int.floor q < 1 / 2 then Int.floor q
  else if 1 / 2 < q - Int.floor q then Int.floor q + 1
  else if Int.floor q % 2 = 0 then Int.floor q else Int.floor q + 1

/-- Python `round(x, 2)`: round to the nearest multiple of 1/100, ties to
even (float binary representation effects are abstracted away by the exact
rational model). -/
def pyRound2 (q : ℚ) : ℚ :=
  (roundHalfEven (q * 100) : ℚ) / 100

/-- The aspect-ratio expression of `analyze_patterns` (line 300):
`round(width / height, 2) if height > 0 else 0`.  The division only runs
inside the guarded branch; `pyDiv` records whether a `ZeroDivisionError`
could be raised. -/
def sectionAspect (c : Coordinates) : Option ℚ :=
  if 0 < c.height then (pyDiv (c.width : ℚ) (c.height : ℚ)).map pyRound2 else some 0

/-- The aspect-ratio list accumulated by the loop of lines 295-303; a raised
`ZeroDivisionError` anywhere would abort `analyze_patterns` (modelled as
`none`). -/
def aspectsOf : List Extracted → Option (List ℚ)
  | [] => some []
  | s :: rest =>
    match sectionAspect s.coordinates, aspectsOf rest with
    | some a, some as => some (a :: as)
    | _, _ => none

/-- `min(areas)` with Python's convention unavailable on empty input; the
source guards with `if areas else 0` (line 316). -/
def pyListMin : List Int → Int
  | [] => 0
  | x :: xs => xs.foldl min x

/-- `max(areas) if areas else 0` (line 317). -/
def pyListMax : List Int → Int
  | [] => 0
  | x :: xs => xs.foldl max x

/-- The per-type statistics assembled by `analyze_patterns` (lines 287-319)
from the annotated coordinates of each section of the group: the raw
dimension pairs, aspect ratios and areas collected by the loop, plus
`avg_area` (`sum(areas) / len(areas) if areas else 0`) and the area range.
(The `Counter.most_common` summaries are frequency reports over the same
`dims` and `aspects` lists and add no further data dependence.) -/
structure TypeStats where
  count : Nat
  dims : List (Int × Int)
  aspects : List ℚ
  areas : List Int
  avg_area : ℚ
  min_area : Int
  max_area : Int
deriving DecidableEq, Repr

/-- The per-type body of `analyze_patterns` (lines 287-319), reading only
`section["coordinates"]` of each group member. -/
def analyzeSections (ss : List Extracted) : Option TypeStats :=
  match aspectsOf ss with
  | none => none
  | some asps =>
    some ⟨ss.length,
      ss.map (fun s => (s.coordinates.width, s.coordinates.height)),
      asps,
      ss.map (fun s => s.coordinates.width * s.coordinates.height),
      if ss.length = 0 then 0
      else (((ss.map (fun s => s.coordinates.width * s.coordinates.height)).foldl
        (· + ·) 0 : Int) : ℚ) / (ss.length : ℚ),
      pyListMin (ss.map (fun s => s.coordinates.width * s.coordinates.height)),
      pyListMax (ss.map (fun s => s.coordinates.width * s.coordinates.height))⟩

/-- The character class `[a-z0-9_]` of the spec's `unique_id` regular
expression. -/
def isIdChar (c : Char) : Bool :=
  (97 ≤ c.toNat && c.toNat ≤ 122) || (48 ≤ c.toNat && c.toNat ≤ 57) || c.toNat == 95

/-- The spec's regular expression `^[a-z0-9_]+_\d{4}$` as a decidable
matcher: some split of the string into a nonempty `[a-z0-9_]` prefix, an
underscore, and exactly four digits. -/
def matchesIdRegex (s : String) : Bool :=
  (List.range s.data.length).any (fun k =>
    decide (s.data.take k ≠ []) && (s.data.take k).all isIdChar &&
      (match s.data.drop k with
       | '_' :: ds => decide (ds.length = 4) && ds.all Char.isDigit
       | _ => false))

/-- Follows the claim wording of C1 (not the source): lower-case the type
tag and replace every whitespace character with an underscore. -/
def specNormalizeType (t : String) : String :=
  String.mk (t.data.map (fun c => if c.toLower.isWhitespace then '_' else c.toLower))

/-! ### Decimal-representation lemmas

`pad4` is built on `Nat.repr`.  To reason about it we recharacterize
`Nat.toDigits 10` structurally and prove that the digit string of `n`
evaluates back to `n`, giving injectivity of `pad4` and the shape facts
needed for the `unique_id` format claims. -/

/-- The decimal digits of `n`, most significant first. -/
def myDigits (n : Nat) : List Char :=
  if _h : n < 10 then [Nat.digitChar n]
  else myDigits (n / 10) ++ [Nat.digitChar (n % 10)]
termination_by n
decreasing_by exact Nat.div_lt_self (by omega) (by omega)

lemma toDigitsCore_eq (fuel n : Nat) (ds : List Char) (h : n < fuel) :
    Nat.toDigitsCore 10 fuel n ds = myDigits n ++ ds := by
  induction fuel generalizing n ds with
  | zero => omega
  | succ f ih =>
    rw [Nat.toDigitsCore]
    by_cases h10 : n < 10
    · have h0 : n / 10 = 0 := by omega
      rw [myDigits]
      simp [h0, h10, Nat.mod_eq_of_lt h10]
    · have h0 : ¬ n / 10 = 0 := by omega
      rw [if_neg h0, ih (n / 10) _ (by omega)]
      conv_rhs => rw [myDigits]
      rw [dif_neg h10]
      simp [List.append_assoc]

lemma repr_data (n : Nat) : (Nat.repr n).data = myDigits n := by
  rw [Nat.repr, Nat.toDigits, toDigitsCore_eq (n + 1) n [] (by omega)]
  simp [List.asString]

/-- Numeric value of one digit character. -/
def charVal (c : Char) : Nat := c.toNat - 48

/-- Numeric value of a digit string, most significant first. -/
def digitsVal (cs : List Char) : Nat :=
  cs.foldl (fun a c => 10 * a + charVal c) 0

lemma digitChar_isDigit {k : Nat} (h : k < 10) : (Nat.digitChar k).isDigit = true := by
  interval_cases k <;> decide

lemma charVal_digitChar {k : Nat} (h : k < 10) : charVal (Nat.digitChar k) = k := by
  interval_cases k <;> decide

lemma digitsVal_append_singleton (cs : List Char) (c : Char) :
    digitsVal (cs ++ [c]) = 10 * digitsVal cs + charVal c := by
  rw [digitsVal, List.foldl_append]
  rfl

lemma digitsVal_myDigits (n : Nat) : digitsVal (myDigits n) = n := by
  induction n using Nat.strong_induction_on with
  | _ n ih =>
    rw [myDigits]
    by_cases h : n < 10
    · simp [h, digitsVal, charVal_digitChar h]
    · rw [dif_neg h, digitsVal_append_singleton,
        ih (n / 10) (Nat.div_lt_self (by omega) (by omega)),
        charVal_digitChar (by omega)]
      omega

lemma myDigits_all_isDigit (n : Nat) : ∀ c ∈ myDigits n, c.isDigit = true := by
  induction n using Nat.strong_induction_on with
  | _ n ih =>
    rw [myDigits]
    by_cases h : n < 10
    · simp [h]
      exact digitChar_isDigit h
    · rw [dif_neg h]
      intro c hc
      rcases List.mem_append.mp hc with h1 | h2
      · exact ih (n / 10) (Nat.div_lt_self (by omega) (by omega)) c h1
      · rcases List.mem_singleton.mp h2 with rfl
        exact digitChar_isDigit (by omega)

lemma isDigit_ne_underscore {c : Char} (h : c.isDigit = true) : c ≠ '_' := by
  intro hc
  subst hc
  simp [Char.isDigit] at h

lemma pad4_data (n : Nat) :
    (pad4 n).data = List.replicate (4 - (Nat.repr n).length) '0' ++ myDigits n := by
  rw [pad4, String.data_append, repr_data]

lemma digitsVal_replicate_zero (k : Nat) (cs : List Char) :
    digitsVal (List.replicate k '0' ++ cs) = digitsVal cs := by
  induction k with
  | zero => simp
  | succ m ih =>
    rw [List.replicate_succ, List.cons_append, digitsVal, List.foldl_cons]
    have : (10 * 0 + charVal '0') = 0 := by decide
    rw [this]
    exact ih

lemma digitsVal_pad4 (n : Nat) : digitsVal (pad4 n).data = n := by
  rw [pad4_data, digitsVal_replicate_zero, digitsVal_myDigits]

lemma pad4_inj {m n : Nat} (h : pad4 m = pad4 n) : m = n := by
  have := congrArg (fun s => digitsVal s.data) h
  simpa [digitsVal_pad4] using this

lemma pad4_all_isDigit (n : Nat) : ∀ c ∈ (pad4 n).data, c.isDigit = true := by
  rw [pad4_data]
  intro c hc
  rcases List.mem_append.mp hc with h1 | h2
  · rcases List.eq_of_mem_replicate h1 with rfl
    decide
  · exact myDigits_all_isDigit n c h2

/-- Splitting at a separator absent from both left parts is unambiguous. -/
lemma sep_split_unique {u1 v1 u2 v2 : List Char}
    (h1 : '_' ∉ u1) (h2 : '_' ∉ u2)
    (he : u1 ++ '_' :: v1 = u2 ++ '_' :: v2) : u1 = u2 ∧ v1 = v2 := by
  induction u1 generalizing u2 with
  | nil =>
    cases u2 with
    | nil =>
      simp only [List.nil_append] at he
      injection he with hc ht
      exact ⟨rfl, ht⟩
    | cons c u2' =>
      simp only [List.nil_append, List.cons_append] at he
      injection he with hc ht
      have : '_' ∈ c :: u2' := by
        rw [← hc]
        exact List.mem_cons_self _ _
      exact absurd this h2
  | cons c u1' ih =>
    cases u2 with
    | nil =>
      simp only [List.nil_append, List.cons_append] at he
      injection he with hc ht
      have : '_' ∈ c :: u1' := by
        rw [hc]
        exact List.mem_cons_self _ _
      exact absurd this h1
    | cons d u2' =>
      simp only [List.cons_append] at he
      injection he with hc ht
      subst hc
      have h1' : '_' ∉ u1' := fun hm => h1 (List.mem_cons_of_mem _ hm)
      have h2' : '_' ∉ u2' := fun hm => h2 (List.mem_cons_of_mem _ hm)
      rcases ih h1' h2' ht with ⟨rfl, rfl⟩
      exact ⟨rfl, rfl⟩

/-- The counter is recoverable from the digit block after the last
underscore: two padded-counter suffixes agree only if the counters do. -/
lemma append_pad4_inj {a b : String} {c1 c2 : Nat}
    (h : a ++ "_" ++ pad4 c1 = b ++ "_" ++ pad4 c2) : c1 = c2 := by
  have hd : a.data ++ '_' :: (pad4 c1).data = b.data ++ '_' :: (pad4 c2).data := by
    have := congrArg String.data h
    simpa [String.data_append] using this
  have hrev := congrArg List.reverse hd
  simp only [List.reverse_append, List.reverse_cons, List.append_assoc,
    List.singleton_append] at hrev
  have h1 : '_' ∉ (pad4 c1).data.reverse := by
    intro hm
    exact isDigit_ne_underscore (pad4_all_isDigit c1 _ (List.mem_reverse.mp hm)) rfl
  have h2 : '_' ∉ (pad4 c2).data.reverse := by
    intro hm
    exact isDigit_ne_underscore (pad4_all_isDigit c2 _ (List.mem_reverse.mp hm)) rfl
  rcases sep_split_unique h1 h2 hrev with ⟨hu, _⟩
  have : (pad4 c1).data = (pad4 c2).data := by
    have := congrArg List.reverse hu
    simpa using this
  exact pad4_inj (String.ext this)

/-- Specialization to `generate_section_id` (lines 199-202). -/
lemma generate_section_id_counter_inj {s1 s2 : SectionSpec} {c1 c2 : Nat}
    (h : generate_section_id s1 c1 = generate_section_id s2 c2) : c1 = c2 :=
  append_pad4_inj (by simpa [generate_section_id] using h)

/-! ### Crop geometry and per-section step lemmas -/

lemma crop_section_image_none_iff {imgW imgH : Int} {coords : Coordinates} {f : Bool} :
    crop_section_image imgW imgH coords f = none ↔
      (min coords.width (imgW - max 0 (min coords.x imgW)) ≤ 0 ∨
       min coords.height (imgH - max 0 (min coords.y imgH)) ≤ 0 ∨ f = true) := by
  rw [crop_section_image]
  split
  · rename_i hd
    simp only [true_iff]
    tauto
  · rename_i hd
    push_neg at hd
    split
    · rename_i hf
      simp [hf]
    · rename_i hf
      simp only [reduceCtorEq, false_iff]
      push_neg
      refine ⟨by omega, by omega, by simpa using hf⟩

lemma crop_section_image_some {imgW imgH : Int} {coords : Coordinates} {f : Bool}
    {c : CropResult} (h : crop_section_image imgW imgH coords f = some c) :
    f = false ∧
    c.x = max 0 (min coords.x imgW) ∧
    c.y = max 0 (min coords.y imgH) ∧
    c.width = min coords.width (imgW - max 0 (min coords.x imgW)) ∧
    c.height = min coords.height (imgH - max 0 (min coords.y imgH)) ∧
    0 < c.width ∧ 0 < c.height ∧
    c.medium = calculate_resize (c.width, c.height) (400, 300) ∧
    c.thumbnail = calculate_resize (c.width, c.height) (200, 150) := by
  rw [crop_section_image] at h
  split at h
  · exact absurd h (by simp)
  · split at h
    · exact absurd h (by simp)
    · rename_i hd hf
      push_neg at hd
      injection h with hc
      subst hc
      exact ⟨by simpa using hf, rfl, rfl, rfl, rfl, hd.1, hd.2, rfl, rfl⟩

lemma processSection_none {src : String} {imgW imgH : Int} {st : PipelineState}
    {p : SectionSpec × Bool}
    (h : crop_section_image imgW imgH p.1.coordinates p.2 = none) :
    processSection src imgW imgH st p = st := by
  rw [processSection, h]

lemma processSection_some {src : String} {imgW imgH : Int} {st : PipelineState}
    {p : SectionSpec × Bool} {c : CropResult}
    (h : crop_section_image imgW imgH p.1.coordinates p.2 = some c) :
    processSection src imgW imgH st p =
      ⟨st.counter + 1,
       st.catalog ++ [⟨p.1.id, p.1.type, p.1.coordinates,
         generate_section_id p.1 st.counter, src, c⟩],
       addToGroups st.groups p.1.type
         ⟨p.1.id, p.1.type, p.1.coordinates, generate_section_id p.1 st.counter, src, c⟩,
       st.errors,
       st.sections_extracted + 1⟩ := by
  rw [processSection, h]

/-! ### Invariant preservation over the phase-2 fold -/

lemma foldl_processSection_inv (P : PipelineState → Prop) (src : String) (imgW imgH : Int)
    (hstep : ∀ st p, P st → P (processSection src imgW imgH st p)) :
    ∀ (ps : List (SectionSpec × Bool)) (st : PipelineState),
      P st → P (List.foldl (processSection src imgW imgH) st ps)
  | [], _, h => h
  | p :: ps, st, h =>
    foldl_processSection_inv P src imgW imgH hstep ps _ (hstep st p h)

lemma crop_sections_inv (P : PipelineState → Prop)
    (hstep : ∀ src imgW imgH st p, P st → P (processSection src imgW imgH st p))
    (herr : ∀ st m, P st →
      P ⟨st.counter, st.catalog, st.groups, st.errors ++ [m], st.sections_extracted⟩) :
    ∀ (anns : List AnnotationRun) (st : PipelineState), P st → P (crop_sections anns st) := by
  intro anns
  induction anns with
  | nil => exact fun st h => h
  | cons a rest ih =>
    intro st h
    rw [crop_sections, List.foldl_cons]
    refine ih _ ?_
    rw [processAnnotationRun]
    split
    · exact herr st _ h
    · exact foldl_processSection_inv P _ _ _ (fun st p => hstep _ _ _ st p) a.sections st h

/-- The id/counter discipline of a counter value and a catalog: the counter
equals one plus the catalog length, and the `i`-th cataloged section
(0-based) carries the id generated from counter value `1 + i`. -/
def CatalogShape (cnt : Nat) (cat : List Extracted) : Prop :=
  cnt = 1 + cat.length ∧
  ∀ i (h : i < cat.length),
    cat[i].unique_id = normalizeType cat[i].type ++ "_" ++ pad4 (1 + i)

/-- The catalog/counter invariant behind C1, C4 and C9. -/
def CatalogInv (st : PipelineState) : Prop :=
  CatalogShape st.counter st.catalog

lemma catalogShape_append {cnt : Nat} {cat : List Extracted} {e : Extracted}
    (h : CatalogShape cnt cat)
    (he : e.unique_id = normalizeType e.type ++ "_" ++ pad4 cnt) :
    CatalogShape (cnt + 1) (cat ++ [e]) := by
  rcases h with ⟨hcnt, hids⟩
  constructor
  · simp only [List.length_append, List.length_singleton]
    omega
  · intro i hi
    simp only [List.length_append, List.length_singleton] at hi
    by_cases hlt : i < cat.length
    · simp only [List.getElem_append_left hlt]
      exact hids i hlt
    · have hieq : i = cat.length := by omega
      subst hieq
      simp only [List.getElem_append_right (le_refl cat.length)]
      simpa [hcnt] using he

lemma catalogInv_step (src : String) (imgW imgH : Int) (st : PipelineState)
    (p : SectionSpec × Bool) (h : CatalogInv st) :
    CatalogInv (processSection src imgW imgH st p) := by
  cases hc : crop_section_image imgW imgH p.1.coordinates p.2 with
  | none => rw [processSection_none hc]; exact h
  | some c =>
    rw [processSection_some hc]
    exact catalogShape_append h rfl

lemma crop_sections_catalogInv (anns : List AnnotationRun) (st : PipelineState)
    (h : CatalogInv st) : CatalogInv (crop_sections anns st) :=
  crop_sections_inv CatalogInv catalogInv_step (fun _ _ hp => hp) anns st h

lemma runCrop_catalogInv (anns : List AnnotationRun) : CatalogInv (runCrop anns) :=
  crop_sections_catalogInv anns initState ⟨rfl, fun i h => by simp [initState] at h⟩

/-! ### Shape of a generated id with respect to the spec regex -/

lemma myDigits_length_le (n : Nat) : ∀ k : Nat, 0 < k → n < 10 ^ k →
    (myDigits n).length ≤ k := by
  induction n using Nat.strong_induction_on with
  | _ n ih =>
    intro k hk hn
    rw [myDigits]
    by_cases h : n < 10
    · simp only [h, dif_pos, List.length_singleton]
      omega
    · rw [dif_neg h]
      simp only [List.length_append, List.length_singleton]
      have hk2 : 2 ≤ k := by
        by_contra hc
        have hone : k = 1 := by omega
        subst hone
        rw [pow_one] at hn
        omega
      have hpow : 10 ^ (k - 1) * 10 = 10 ^ k := by
        rw [← pow_succ]
        congr 1
        omega
      have hdiv : n / 10 < 10 ^ (k - 1) := by
        rw [Nat.div_lt_iff_lt_mul (by omega)]
        omega
      have := ih (n / 10) (Nat.div_lt_self (by omega) (by omega)) (k - 1) (by omega) hdiv
      omega

lemma pad4_length_of_le {n : Nat} (h : n ≤ 9999) : (pad4 n).data.length = 4 := by
  have hml : (myDigits n).length ≤ 4 := myDigits_length_le n 4 (by omega) (by omega)
  have hrl : (Nat.repr n).length = (myDigits n).length := by
    show (Nat.repr n).data.length = _
    rw [repr_data]
  rw [pad4_data]
  simp only [List.length_append, List.length_replicate]
  omega

lemma matchesIdRegex_of (p d : List Char) (hp : p ≠ [])
    (hpc : ∀ c ∈ p, isIdChar c = true) (hd4 : d.length = 4)
    (hdd : ∀ c ∈ d, c.isDigit = true) :
    matchesIdRegex (String.mk (p ++ '_' :: d)) = true := by
  rw [matchesIdRegex, List.any_eq_true]
  refine ⟨p.length, ?_, ?_⟩
  · rw [List.mem_range]
    show p.length < (p ++ '_' :: d).length
    simp [List.length_append]
  · show (decide ((p ++ '_' :: d).take p.length ≠ []) &&
      ((p ++ '_' :: d).take p.length).all isIdChar &&
      (match (p ++ '_' :: d).drop p.length with
       | '_' :: ds => decide (ds.length = 4) && ds.all Char.isDigit
       | _ => false)) = true
    rw [List.take_left, List.drop_left]
    simp [hp, hd4, List.all_eq_true]
    exact ⟨hpc, hdd⟩

lemma matchesIdRegex_id {t : String} {c : Nat} (ht : (normalizeType t).data ≠ [])
    (htc : ∀ ch ∈ (normalizeType t).data, isIdChar ch = true) (hc : c ≤ 9999) :
    matchesIdRegex (normalizeType t ++ "_" ++ pad4 c) = true := by
  have hs : normalizeType t ++ "_" ++ pad4 c =
      String.mk ((normalizeType t).data ++ '_' :: (pad4 c).data) := by
    apply String.ext
    simp [String.data_append]
  rw [hs]
  exact matchesIdRegex_of _ _ ht htc (pad4_length_of_le hc) (pad4_all_isDigit c)

/-- C1 (amended): within one run the `unique_id`s of the cataloged sections
are pairwise distinct, and the `i`-th one (0-based) is the type lower-cased
with each space replaced by an underscore, an underscore, and counter
`1 + i` zero-padded to at least four digits.  The spec regex
`^[a-z0-9_]+_\d{4}$` is matched provided the normalized type is a nonempty
string over `[a-z0-9_]` and at most 9999 sections were cataloged (the
amendments the counterexample forces: Python only replaces the space
character, not all whitespace, and an id built from a type with characters
outside the class — or from an empty type, or a 5-digit counter — escapes
the regex). -/
theorem c1_unique_id_format (anns : List AnnotationRun) :
    ((runCrop anns).catalog.map (fun e => e.unique_id)).Nodup ∧
    (∀ i (h : i < (runCrop anns).catalog.length),
      (runCrop anns).catalog[i].unique_id =
        normalizeType (runCrop anns).catalog[i].type ++ "_" ++ pad4 (1 + i)) ∧
    ((runCrop anns).catalog.length ≤ 9999 →
      ∀ e ∈ (runCrop anns).catalog, normalizeType e.type ≠ "" →
        (∀ ch ∈ (normalizeType e.type).data, isIdChar ch = true) →
        matchesIdRegex e.unique_id = true) := by
  obtain ⟨hcnt, hids⟩ := runCrop_catalogInv anns
  refine ⟨?_, hids, ?_⟩
  · rw [List.nodup_iff_injective_get]
    rintro ⟨i, hi⟩ ⟨j, hj⟩ hab
    have hi' : i < (runCrop anns).catalog.length := by simpa using hi
    have hj' : j < (runCrop anns).catalog.length := by simpa using hj
    simp only [List.get_eq_getElem, List.getElem_map] at hab
    rw [hids i hi', hids j hj'] at hab
    have hij : 1 + i = 1 + j := append_pad4_inj hab
    exact Fin.ext (show i = j by omega)
  · intro hlen e he hne hch
    obtain ⟨⟨i, hi⟩, hgi⟩ := List.mem_iff_get.mp he
    subst hgi
    rw [List.get_eq_getElem] at hne hch ⊢
    rw [hids i hi]
    refine matchesIdRegex_id ?_ hch (by omega)
    intro hnil
    exact hne (String.ext hnil)

/-- C1 (counterexample to the claim as stated): a section of type
`"a\tb"` (a tab, which is whitespace but not a space) is cataloged with
`unique_id = "a\tb_0001"`: the tab survives — the id differs from the
claimed lower-case-and-replace-whitespace form `"a_b_0001"` — and the id
does not match `^[a-z0-9_]+_\d{4}$`. -/
theorem c1_counterexample :
    (runCrop [⟨"s.png", 1000, 1000, false,
        [(⟨"a", "a\tb", ⟨0, 0, 10, 10⟩⟩, false)]⟩]).catalog.map
      (fun e => e.unique_id) = ["a\tb_0001"] ∧
    matchesIdRegex "a\tb_0001" = false ∧
    specNormalizeType "a\tb" ++ "_" ++ pad4 1 = "a_b_0001" ∧
    "a\tb_0001" ≠ "a_b_0001" := by
  decide

/-- C1 witness: the amended theorem applied to a concrete one-section run. -/
theorem c1_witness :
    ((runCrop [⟨"s1.png", 1000, 2000, false,
        [(⟨"a", "hero", ⟨0, 0, 100, 50⟩⟩, false)]⟩]).catalog.get ⟨0, by decide⟩).unique_id =
      normalizeType ((runCrop [⟨"s1.png", 1000, 2000, false,
        [(⟨"a", "hero", ⟨0, 0, 100, 50⟩⟩, false)]⟩]).catalog.get ⟨0, by decide⟩).type ++
        "_" ++ pad4 (1 + 0) ∧
    matchesIdRegex ((runCrop [⟨"s1.png", 1000, 2000, false,
      [(⟨"a", "hero", ⟨0, 0, 100, 50⟩⟩, false)]⟩]).catalog.get ⟨0, by decide⟩).unique_id
      = true := by
  refine ⟨(c1_unique_id_format [⟨"s1.png", 1000, 2000, false,
    [(⟨"a", "hero", ⟨0, 0, 100, 50⟩⟩, false)]⟩]).2.1 0 (by decide), ?_⟩
  exact (c1_unique_id_format [⟨"s1.png", 1000, 2000, false,
      [(⟨"a", "hero", ⟨0, 0, 100, 50⟩⟩, false)]⟩]).2.2 (by decide) _
    (List.get_mem _ _ _) (by decide) (by decide)

/-- C4: the identity counter is one process-wide sequence shared across all
sections of all annotations and is not reset per annotation or per type: in
a run whose first annotation has two `"hero"` sections and whose second
annotation has one `"footer"` section, the emitted ids are `hero_0001`,
`hero_0002` and `footer_0003`, and the counter ends at 4. -/
theorem c4_shared_counter :
    (runCrop [⟨"s1.png", 1000, 2000, false,
        [(⟨"a", "hero", ⟨0, 0, 100, 50⟩⟩, false), (⟨"b", "hero", ⟨0, 100, 100, 50⟩⟩, false)]⟩,
      ⟨"s2.png", 1000, 2000, false,
        [(⟨"c", "footer", ⟨0, 200, 100, 50⟩⟩, false)]⟩]).catalog.map
      (fun e => e.unique_id) = ["hero_0001", "hero_0002", "footer_0003"] ∧
    (runCrop [⟨"s1.png", 1000, 2000, false,
        [(⟨"a", "hero", ⟨0, 0, 100, 50⟩⟩, false), (⟨"b", "hero", ⟨0, 100, 100, 50⟩⟩, false)]⟩,
      ⟨"s2.png", 1000, 2000, false,
        [(⟨"c", "footer", ⟨0, 200, 100, 50⟩⟩, false)]⟩]).counter = 4 := by
  decide

/-- C9: the counter advances exactly on catalog appends, so after any run
the counter is one plus the catalog size, and the section at 0-based catalog
position `i` carries the id generated from sequence number `1 + i` — the
sequence numbers of cataloged sections are consecutive from 1 with no gaps
even when sections were dropped along the way. -/
theorem c9_consecutive_sequence (anns : List AnnotationRun) :
    (runCrop anns).counter = 1 + (runCrop anns).catalog.length ∧
    ∀ i (h : i < (runCrop anns).catalog.length),
      (runCrop anns).catalog[i].unique_id =
        generate_section_id ⟨(runCrop anns).catalog[i].id,
          (runCrop anns).catalog[i].type,
          (runCrop anns).catalog[i].coordinates⟩ (1 + i) :=
  ⟨(runCrop_catalogInv anns).1, fun i h => (runCrop_catalogInv anns).2 i h⟩

/-- C9 witness: in a run whose first section is dropped (zero width), the
first cataloged section still carries sequence number 1. -/
theorem c9_witness :
    ((runCrop [⟨"s.png", 100, 100, false,
        [(⟨"a", "hero", ⟨0, 0, 0, 10⟩⟩, false),
         (⟨"b", "hero", ⟨0, 0, 10, 10⟩⟩, false)]⟩]).catalog.get ⟨0, by decide⟩).unique_id =
      generate_section_id ⟨"b", "hero", ⟨0, 0, 10, 10⟩⟩ 1 := by
  have h := (c9_consecutive_sequence [⟨"s.png", 100, 100, false,
    [(⟨"a", "hero", ⟨0, 0, 0, 10⟩⟩, false),
     (⟨"b", "hero", ⟨0, 0, 10, 10⟩⟩, false)]⟩]).2 0 (by decide)
  exact h.trans (by decide)

/-- C2: the cropper clamps `x` into `[0, image_width]` and `y` into
`[0, image_height]`, then reduces `width`/`height` (never re-shifting `x` or
`y`) so that the box fits; a non-positive clamped width or height drops the
section (no derivative is produced), and any produced crop rectangle lies
entirely within the image bounds. -/
theorem c2_crop_clamping (imgW imgH : Int) (coords : Coordinates) (f : Bool) :
    ((min coords.width (imgW - max 0 (min coords.x imgW)) ≤ 0 ∨
      min coords.height (imgH - max 0 (min coords.y imgH)) ≤ 0) →
      crop_section_image imgW imgH coords f = none) ∧
    (∀ c, crop_section_image imgW imgH coords f = some c →
      c.x = max 0 (min coords.x imgW) ∧
      c.y = max 0 (min coords.y imgH) ∧
      c.width = min coords.width (imgW - c.x) ∧
      c.height = min coords.height (imgH - c.y) ∧
      0 ≤ c.x ∧ 0 ≤ c.y ∧ 0 < c.width ∧ 0 < c.height ∧
      c.x + c.width ≤ imgW ∧ c.y + c.height ≤ imgH ∧
      c.width ≤ coords.width ∧ c.height ≤ coords.height) := by
  constructor
  · intro h
    exact crop_section_image_none_iff.mpr (by tauto)
  · intro c hc
    obtain ⟨hf, hx, hy, hw, hh, hwpos, hhpos, hm, ht⟩ := crop_section_image_some hc
    exact ⟨hx, hy, by omega, by omega, by omega, by omega, hwpos, hhpos,
      by omega, by omega, by omega, by omega⟩

/-- C2 witness: a section sticking out on all sides of a 1000x1000 image is
clamped to the full image, and a zero-width section is dropped. -/
theorem c2_witness :
    crop_section_image 1000 1000 ⟨0, 0, 0, 10⟩ false = none ∧
    ((0 : Int) = max 0 (min (-50) 1000) ∧
     (0 : Int) = max 0 (min (-50) 1000) ∧
     (1000 : Int) = min 2000 (1000 - 0) ∧
     (1000 : Int) = min 3000 (1000 - 0) ∧
     (0 : Int) ≤ 0 ∧ (0 : Int) ≤ 0 ∧ (0 : Int) < 1000 ∧ (0 : Int) < 1000 ∧
     (0 : Int) + 1000 ≤ 1000 ∧ (0 : Int) + 1000 ≤ 1000 ∧
     (1000 : Int) ≤ 2000 ∧ (1000 : Int) ≤ 3000) := by
  refine ⟨(c2_crop_clamping 1000 1000 ⟨0, 0, 0, 10⟩ false).1 (by decide), ?_⟩
  exact (c2_crop_clamping 1000 1000 ⟨-50, -50, 2000, 3000⟩ false).2
    ⟨0, 0, 1000, 1000, calculate_resize (1000, 1000) (400, 300),
      calculate_resize (1000, 1000) (200, 150)⟩ rfl

/-! ### The error log across phase 2 -/

lemma errors_foldl_processSection (src : String) (imgW imgH : Int) :
    ∀ (ps : List (SectionSpec × Bool)) (st : PipelineState),
      (List.foldl (processSection src imgW imgH) st ps).errors = st.errors
  | [], _ => rfl
  | p :: ps, st => by
    rw [List.foldl_cons,
      errors_foldl_processSection src imgW imgH ps (processSection src imgW imgH st p)]
    cases hc : crop_section_image imgW imgH p.1.coordinates p.2 with
    | none => rw [processSection_none hc]
    | some c => rw [processSection_some hc]

lemma crop_sections_errors :
    ∀ (anns : List AnnotationRun) (st : PipelineState),
      (crop_sections anns st).errors =
        st.errors ++ (anns.filter (fun a => a.openFail)).map
          (fun a => "Error processing " ++ a.source_image)
  | [], st => by simp [crop_sections]
  | a :: anns, st => by
    rw [crop_sections, List.foldl_cons]
    show (crop_sections anns (processAnnotationRun st a)).errors = _
    rw [crop_sections_errors anns (processAnnotationRun st a), processAnnotationRun]
    by_cases hf : a.openFail
    · rw [if_pos hf]
      simp [hf, List.filter_cons, List.append_assoc]
    · rw [if_neg hf, errors_foldl_processSection]
      simp [hf, List.filter_cons]

/-- C5 (amended): a section whose crop degenerates or whose cropping raises
an exception is dropped and sibling sections continue to be processed
exactly as if the dropped section were absent, but the failure is only
printed — the process-wide error log surfaced in the statistics artifact is
not extended by per-section crop failures: across a whole phase-2 run, the
error log grows exactly by the annotation-level failures (unreadable
screenshots). -/
theorem c5_dropped_section_error_handling :
    (∀ (src : String) (imgW imgH : Int) (st : PipelineState) (p : SectionSpec × Bool),
      crop_section_image imgW imgH p.1.coordinates p.2 = none →
      processSection src imgW imgH st p = st) ∧
    (∀ (src : String) (imgW imgH : Int) (st : PipelineState)
      (pre post : List (SectionSpec × Bool)) (p : SectionSpec × Bool),
      crop_section_image imgW imgH p.1.coordinates p.2 = none →
      List.foldl (processSection src imgW imgH) st (pre ++ p :: post) =
        List.foldl (processSection src imgW imgH) st (pre ++ post)) ∧
    (∀ (anns : List AnnotationRun) (st : PipelineState),
      (crop_sections anns st).errors =
        st.errors ++ (anns.filter (fun a => a.openFail)).map
          (fun a => "Error processing " ++ a.source_image)) := by
  refine ⟨fun _ _ _ _ _ h => processSection_none h, ?_, crop_sections_errors⟩
  intro src imgW imgH st pre post p h
  rw [List.foldl_append, List.foldl_append, List.foldl_cons, processSection_none h]

/-- C5 (counterexample to the claim as stated): in a run whose first section
has zero width, the section is dropped and its sibling is still cataloged,
but the accumulated process-wide error log — the list surfaced as `errors`
in the statistics artifact — stays empty: no error is recorded for the
dropped section. -/
theorem c5_counterexample :
    (runCrop [⟨"s.png", 100, 100, false,
        [(⟨"a", "hero", ⟨0, 0, 0, 10⟩⟩, false),
         (⟨"b", "hero", ⟨0, 0, 10, 10⟩⟩, false)]⟩]).errors = [] ∧
    (runCrop [⟨"s.png", 100, 100, false,
        [(⟨"a", "hero", ⟨0, 0, 0, 10⟩⟩, false),
         (⟨"b", "hero", ⟨0, 0, 10, 10⟩⟩, false)]⟩]).catalog.map
      (fun e => e.unique_id) = ["hero_0001"] := by
  decide

/-- C5 witness: the amended theorem applied to a concrete degenerate
section, and to a fold in which the degenerate section sits between two
valid siblings. -/
theorem c5_witness :
    processSection "s.png" 100 100 initState (⟨"a", "hero", ⟨0, 0, 0, 10⟩⟩, false) =
      initState ∧
    List.foldl (processSection "s.png" 100 100) initState
        [(⟨"b", "hero", ⟨0, 0, 10, 10⟩⟩, false), (⟨"a", "hero", ⟨0, 0, 0, 10⟩⟩, false),
         (⟨"c", "hero", ⟨0, 20, 10, 10⟩⟩, false)] =
      List.foldl (processSection "s.png" 100 100) initState
        [(⟨"b", "hero", ⟨0, 0, 10, 10⟩⟩, false), (⟨"c", "hero", ⟨0, 20, 10, 10⟩⟩, false)] := by
  refine ⟨c5_dropped_section_error_handling.1 "s.png" 100 100 initState
    (⟨"a", "hero", ⟨0, 0, 0, 10⟩⟩, false) (by decide), ?_⟩
  exact c5_dropped_section_error_handling.2.1 "s.png" 100 100 initState
    [(⟨"b", "hero", ⟨0, 0, 10, 10⟩⟩, false)] [(⟨"c", "hero", ⟨0, 20, 10, 10⟩⟩, false)]
    (⟨"a", "hero", ⟨0, 0, 0, 10⟩⟩, false) (by decide)

/-! ### Resize arithmetic -/

lemma pyInt_eq_floor {q : ℚ} (h : 0 ≤ q) : pyInt q = Int.floor q := by
  rw [pyInt, Int.tdiv_eq_ediv (by exact_mod_cast Rat.num_nonneg.mpr h)
    (by positivity), Rat.floor_def]

/-- Core facts about `calculate_resize`: the result fits the bound, never
exceeds the original, and both dimensions arise from one common scale factor
`s ∈ (0, 1]` with truncation error below one pixel. -/
lemma calculate_resize_spec {w h bw bh : Int} (hw : 0 < w) (hh : 0 < h)
    (hbw : 0 < bw) (hbh : 0 < bh) :
    (calculate_resize (w, h) (bw, bh)).1 ≤ bw ∧
    (calculate_resize (w, h) (bw, bh)).2 ≤ bh ∧
    (calculate_resize (w, h) (bw, bh)).1 ≤ w ∧
    (calculate_resize (w, h) (bw, bh)).2 ≤ h ∧
    ∃ s : ℚ, 0 < s ∧ s ≤ 1 ∧
      ((calculate_resize (w, h) (bw, bh)).1 : ℚ) ≤ (w : ℚ) * s ∧
      (w : ℚ) * s - 1 < ((calculate_resize (w, h) (bw, bh)).1 : ℚ) ∧
      ((calculate_resize (w, h) (bw, bh)).2 : ℚ) ≤ (h : ℚ) * s ∧
      (h : ℚ) * s - 1 < ((calculate_resize (w, h) (bw, bh)).2 : ℚ) := by
  have hwq : (0 : ℚ) < (w : ℚ) := by exact_mod_cast hw
  have hhq : (0 : ℚ) < (h : ℚ) := by exact_mod_cast hh
  have hbwq : (0 : ℚ) < (bw : ℚ) := by exact_mod_cast hbw
  have hbhq : (0 : ℚ) < (bh : ℚ) := by exact_mod_cast hbh
  have hspos : 0 < min ((bw : ℚ) / (w : ℚ)) (min ((bh : ℚ) / (h : ℚ)) 1) :=
    lt_min (div_pos hbwq hwq) (lt_min (div_pos hbhq hhq) one_pos)
  have hs1 : min ((bw : ℚ) / (w : ℚ)) (min ((bh : ℚ) / (h : ℚ)) 1) ≤ 1 :=
    le_trans (min_le_right _ _) (min_le_right _ _)
  set s : ℚ := min ((bw : ℚ) / (w : ℚ)) (min ((bh : ℚ) / (h : ℚ)) 1) with hsdef
  have hc1 : (calculate_resize (w, h) (bw, bh)).1 = pyInt ((w : ℚ) * s) := rfl
  have hc2 : (calculate_resize (w, h) (bw, bh)).2 = pyInt ((h : ℚ) * s) := rfl
  have hws : (0 : ℚ) ≤ (w : ℚ) * s := le_of_lt (mul_pos hwq hspos)
  have hhs : (0 : ℚ) ≤ (h : ℚ) * s := le_of_lt (mul_pos hhq hspos)
  rw [hc1, hc2, pyInt_eq_floor hws, pyInt_eq_floor hhs]
  have hwbound : (w : ℚ) * s ≤ (bw : ℚ) := by
    have h1 : s ≤ (bw : ℚ) / (w : ℚ) := min_le_left _ _
    have h2 : (w : ℚ) * s ≤ (w : ℚ) * ((bw : ℚ) / (w : ℚ)) :=
      mul_le_mul_of_nonneg_left h1 (le_of_lt hwq)
    calc (w : ℚ) * s ≤ (w : ℚ) * ((bw : ℚ) / (w : ℚ)) := h2
      _ = (bw : ℚ) := by field_simp
  have hhbound : (h : ℚ) * s ≤ (bh : ℚ) := by
    have h1 : s ≤ (bh : ℚ) / (h : ℚ) := le_trans (min_le_right _ _) (min_le_left _ _)
    have h2 : (h : ℚ) * s ≤ (h : ℚ) * ((bh : ℚ) / (h : ℚ)) :=
      mul_le_mul_of_nonneg_left h1 (le_of_lt hhq)
    calc (h : ℚ) * s ≤ (h : ℚ) * ((bh : ℚ) / (h : ℚ)) := h2
      _ = (bh : ℚ) := by field_simp
  have hwself : (w : ℚ) * s ≤ (w : ℚ) := by
    calc (w : ℚ) * s ≤ (w : ℚ) * 1 := mul_le_mul_of_nonneg_left hs1 (le_of_lt hwq)
      _ = (w : ℚ) := mul_one _
  have hhself : (h : ℚ) * s ≤ (h : ℚ) := by
    calc (h : ℚ) * s ≤ (h : ℚ) * 1 := mul_le_mul_of_nonneg_left hs1 (le_of_lt hhq)
      _ = (h : ℚ) := mul_one _
  refine ⟨?_, ?_, ?_, ?_, s, hspos, hs1, Int.floor_le _, ?_, Int.floor_le _, ?_⟩
  · have := Int.floor_le_floor hwbound
    rwa [Int.floor_intCast] at this
  · have := Int.floor_le_floor hhbound
    rwa [Int.floor_intCast] at this
  · have := Int.floor_le_floor hwself
    rwa [Int.floor_intCast] at this
  · have := Int.floor_le_floor hhself
    rwa [Int.floor_intCast] at this
  · have := Int.lt_floor_add_one ((w : ℚ) * s)
    linarith
  · have := Int.lt_floor_add_one ((h : ℚ) * s)
    linarith

/-- C6: for every successful crop, the medium derivative fits 400x300 and
the thumbnail fits 200x150, neither exceeds the crop's own dimensions, each
is obtained from the crop by one uniform scale factor
`min(bound_w/w, bound_h/h, 1)` applied to both dimensions with less than one
pixel of truncation error (aspect preservation up to rounding), and the
thumbnail is computed from the full crop dimensions, not from the medium
derivative. -/
theorem c6_derivative_bounds (imgW imgH : Int) (coords : Coordinates) (f : Bool)
    (c : CropResult) (h : crop_section_image imgW imgH coords f = some c) :
    c.medium = calculate_resize (c.width, c.height) (400, 300) ∧
    c.thumbnail = calculate_resize (c.width, c.height) (200, 150) ∧
    c.medium.1 ≤ 400 ∧ c.medium.2 ≤ 300 ∧
    c.thumbnail.1 ≤ 200 ∧ c.thumbnail.2 ≤ 150 ∧
    c.medium.1 ≤ c.width ∧ c.medium.2 ≤ c.height ∧
    c.thumbnail.1 ≤ c.width ∧ c.thumbnail.2 ≤ c.height ∧
    (∃ s : ℚ, 0 < s ∧ s ≤ 1 ∧
      (c.medium.1 : ℚ) ≤ (c.width : ℚ) * s ∧
      (c.width : ℚ) * s - 1 < (c.medium.1 : ℚ) ∧
      (c.medium.2 : ℚ) ≤ (c.height : ℚ) * s ∧
      (c.height : ℚ) * s - 1 < (c.medium.2 : ℚ)) ∧
    (∃ s : ℚ, 0 < s ∧ s ≤ 1 ∧
      (c.thumbnail.1 : ℚ) ≤ (c.width : ℚ) * s ∧
      (c.width : ℚ) * s - 1 < (c.thumbnail.1 : ℚ) ∧
      (c.thumbnail.2 : ℚ) ≤ (c.height : ℚ) * s ∧
      (c.height : ℚ) * s - 1 < (c.thumbnail.2 : ℚ)) := by
  obtain ⟨hf, hx, hy, hw, hh, hwpos, hhpos, hm, ht⟩ := crop_section_image_some h
  obtain ⟨m1, m2, m3, m4, ms⟩ :=
    calculate_resize_spec hwpos hhpos (by norm_num : (0 : Int) < 400)
      (by norm_num : (0 : Int) < 300)
  obtain ⟨t1, t2, t3, t4, ts⟩ :=
    calculate_resize_spec hwpos hhpos (by norm_num : (0 : Int) < 200)
      (by norm_num : (0 : Int) < 150)
  rw [hm, ht]
  exact ⟨rfl, rfl, m1, m2, t1, t2, m3, m4, t3, t4, ms, ts⟩

/-- C6 witness: the derivative-bound theorem applied to a concrete 450x100
crop inside a 500x500 image. -/
theorem c6_witness :
    (calculate_resize (450, 100) (400, 300)).1 ≤ 400 ∧
    (calculate_resize (450, 100) (400, 300)).2 ≤ 300 ∧
    (calculate_resize (450, 100) (200, 150)).1 ≤ 200 ∧
    (calculate_resize (450, 100) (200, 150)).2 ≤ 150 ∧
    (calculate_resize (450, 100) (400, 300)).1 ≤ 450 ∧
    (calculate_resize (450, 100) (400, 300)).2 ≤ 100 := by
  have h := c6_derivative_bounds 500 500 ⟨10, 10, 450, 100⟩ false
    ⟨10, 10, 450, 100, calculate_resize (450, 100) (400, 300),
      calculate_resize (450, 100) (200, 150)⟩ rfl
  exact ⟨h.2.2.1, h.2.2.2.1, h.2.2.2.2.1, h.2.2.2.2.2.1, h.2.2.2.2.2.2.1,
    h.2.2.2.2.2.2.2.1⟩

/-! ### The type grouping versus the flat catalog -/

lemma types_index_addToGroups (gs : List (String × List Extracted)) (t : String)
    (e : Extracted) :
    types_index (addToGroups gs t e) = addIdToGroups (types_index gs) t e.unique_id := by
  induction gs with
  | nil => simp [types_index, addToGroups, addIdToGroups]
  | cons g rest ih =>
    obtain ⟨k, v⟩ := g
    by_cases hk : k = t
    · simp [addToGroups, addIdToGroups, types_index, hk]
    · simp [addToGroups, addIdToGroups, types_index, hk]
      exact ih

lemma typesIndexOfModules_append (cat : List Extracted) (e : Extracted) :
    typesIndexOfModules (cat ++ [e]) =
      addIdToGroups (typesIndexOfModules cat) e.type e.unique_id := by
  simp [typesIndexOfModules, List.foldl_append]

lemma groupsLookup_addToGroups (gs : List (String × List Extracted)) (t t' : String)
    (e : Extracted) :
    groupsLookup (addToGroups gs t e) t' =
      if t = t' then groupsLookup gs t' ++ [e] else groupsLookup gs t' := by
  induction gs with
  | nil =>
    by_cases h : t = t'
    · simp [addToGroups, groupsLookup, h]
    · simp [addToGroups, groupsLookup, h]
  | cons g rest ih =>
    obtain ⟨k, v⟩ := g
    by_cases hk : k = t
    · subst hk
      by_cases h : k = t'
      · subst h
        simp [addToGroups, groupsLookup]
      · simp [addToGroups, groupsLookup, h]
    · by_cases h : k = t'
      · subst h
        have : ¬ t = k := fun hc => hk hc.symm
        simp [addToGroups, groupsLookup, hk, this]
      · simp [addToGroups, groupsLookup, hk, h, ih]

/-- The invariant linking the type groups to the flat catalog: the
`types_index` built from the groups is the index reconstructed from the flat
list, and every group is the catalog filtered to its type. -/
def GroupsInv (st : PipelineState) : Prop :=
  types_index st.groups = typesIndexOfModules st.catalog ∧
  ∀ t, groupsLookup st.groups t = st.catalog.filter (fun e => e.type = t)

lemma groupsInv_step (src : String) (imgW imgH : Int) (st : PipelineState)
    (p : SectionSpec × Bool) (h : GroupsInv st) :
    GroupsInv (processSection src imgW imgH st p) := by
  cases hc : crop_section_image imgW imgH p.1.coordinates p.2 with
  | none => rw [processSection_none hc]; exact h
  | some c =>
    rw [processSection_some hc]
    obtain ⟨hidx, hlook⟩ := h
    constructor
    · show types_index (addToGroups st.groups p.1.type _) = typesIndexOfModules (st.catalog ++ _)
      rw [types_index_addToGroups, typesIndexOfModules_append, hidx]
    · intro t
      show groupsLookup (addToGroups st.groups p.1.type _) t = List.filter _ (st.catalog ++ _)
      rw [groupsLookup_addToGroups, List.filter_append, hlook t]
      by_cases ht : p.1.type = t
      · rw [if_pos ht]
        simp [List.filter, ht]
      · rw [if_neg ht]
        simp [List.filter, ht]

lemma runCrop_groupsInv (anns : List AnnotationRun) : GroupsInv (runCrop anns) :=
  crop_sections_inv GroupsInv groupsInv_step (fun _ _ hp => hp) anns initState
    ⟨rfl, fun _ => rfl⟩

/-- C3 (amended): the emitted `types_index` is keyed by the raw type string
of the sections (the type is normalized only inside `unique_id`, not for the
grouping keys); with that correction the claim holds: the index entry of
each type is the ordered list of `unique_id`s of exactly the sections of
that type in the flat modules list, and reconstructing the index from the
flat modules list yields exactly the emitted index — no orphans and no
omissions on either side. -/
theorem c3_types_index_consistency (anns : List AnnotationRun) :
    types_index (runCrop anns).groups = typesIndexOfModules (runCrop anns).catalog ∧
    ∀ t, groupsLookup (runCrop anns).groups t =
      (runCrop anns).catalog.filter (fun e => e.type = t) :=
  runCrop_groupsInv anns

/-- C3 (counterexample to the claim as stated): a cataloged section of type
`"Hero Banner"` is indexed under the raw key `"Hero Banner"`, not under the
normalized key `"hero_banner"` that the claim asserts. -/
theorem c3_counterexample :
    (types_index (runCrop [⟨"s.png", 1000, 2000, false,
        [(⟨"a", "Hero Banner", ⟨0, 0, 100, 50⟩⟩, false)]⟩]).groups).map Prod.fst
      = ["Hero Banner"] ∧
    normalizeType "Hero Banner" = "hero_banner" ∧
    ("Hero Banner" : String) ≠ "hero_banner" := by
  decide

/-! ### Loader validation -/

lemma validateSections_missing :
    ∀ (i : Nat) (ss : List SectionData) (fname : String),
      (∃ s ∈ ss, s.id = none ∨ s.type = none ∨ s.coordinates = none) →
      ∃ m, validateSections i ss fname = (false, [m])
  | _, [], _, h => by simp at h
  | i, s :: rest, fname, h => by
    by_cases h1 : s.id = none
    · exact ⟨_, by rw [validateSections, if_pos h1]⟩
    · by_cases h2 : s.type = none
      · exact ⟨_, by rw [validateSections, if_neg h1, if_pos h2]⟩
      · by_cases h3 : s.coordinates = none
        · exact ⟨_, by rw [validateSections, if_neg h1, if_neg h2, if_pos h3]⟩
        · have hrest : ∃ s' ∈ rest, s'.id = none ∨ s'.type = none ∨ s'.coordinates = none := by
            rcases h with ⟨s', hs', hmiss⟩
            rcases List.mem_cons.mp hs' with rfl | hmem
            · tauto
            · exact ⟨s', hmem, hmiss⟩
          obtain ⟨m, hm⟩ := validateSections_missing (i + 1) rest fname hrest
          exact ⟨m, by rw [validateSections, if_neg h1, if_neg h2, if_neg h3, hm]⟩

lemma validate_annotation_missing {a : AnnotationData} (fname : String)
    (h : hasMissingField a) :
    ∃ m, validate_annotation_data a fname = (false, [m]) := by
  by_cases h1 : a.source_image = none
  · exact ⟨_, by rw [validate_annotation_data, if_pos h1]⟩
  · by_cases h2 : a.image_dimensions = none
    · exact ⟨_, by rw [validate_annotation_data, if_neg h1, if_pos h2]⟩
    · cases hs : a.sections with
      | none => exact ⟨_, by rw [validate_annotation_data, if_neg h1, if_neg h2, hs]⟩
      | some ss =>
        have hmiss : ∃ s ∈ ss, s.id = none ∨ s.type = none ∨ s.coordinates = none := by
          rcases h with h | h | h | ⟨ss', hss', hex⟩
          · exact absurd h h1
          · exact absurd h h2
          · rw [h] at hs
            exact absurd hs (by simp)
          · rw [hss'] at hs
            injection hs with hs'
            exact hs' ▸ hex
        obtain ⟨m, hm⟩ := validateSections_missing 0 ss fname hmiss
        refine ⟨m, ?_⟩
        rw [validate_annotation_data, if_neg h1, if_neg h2, hs]
        exact hm

/-- C7: an annotation record missing any required top-level field
(`source_image`, `image_dimensions`, `sections`) or any required section
field (`id`, `type`, `coordinates`) is rejected with exactly one error
appended to the process-wide error log, contributes nothing to the loaded
annotation list (and hence zero catalog entries, since phase 2 only
processes loaded annotations), and loading continues with the remaining
records. -/
theorem c7_invalid_annotation_rejected (a : AnnotationData) (fname : String)
    (scr : Option String) (h : hasMissingField a) :
    ∃ m, validate_annotation_data a fname = (false, [m]) ∧
      (∀ st : LoadState, loadOne st ⟨fname, some a, scr⟩ =
        ⟨st.annotations, st.errors ++ [m], st.files_processed⟩) ∧
      (∀ (pre post : List RawRecord) (st : LoadState),
        load_annotations (pre ++ ⟨fname, some a, scr⟩ :: post) st =
          load_annotations post (loadOne (load_annotations pre st) ⟨fname, some a, scr⟩)) := by
  obtain ⟨m, hm⟩ := validate_annotation_missing fname h
  refine ⟨m, hm, ?_, ?_⟩
  · intro st
    show (match validate_annotation_data a fname with
      | (true, _) => _
      | (false, es) => LoadState.mk st.annotations (st.errors ++ es) st.files_processed) = _
    rw [hm]
  · intro pre post st
    rw [load_annotations, List.foldl_append, List.foldl_cons]
    rfl

/-- C7 witness: a record missing `image_dimensions` is rejected with one
error and admits no annotation. -/
theorem c7_witness :
    ∃ m, validate_annotation_data ⟨some "s1.png", none, some []⟩ "ann_s1.json" =
        (false, [m]) ∧
      (∀ st : LoadState, loadOne st ⟨"ann_s1.json", some ⟨some "s1.png", none, some []⟩, none⟩ =
        ⟨st.annotations, st.errors ++ [m], st.files_processed⟩) ∧
      (∀ (pre post : List RawRecord) (st : LoadState),
        load_annotations (pre ++ ⟨"ann_s1.json", some ⟨some "s1.png", none, some []⟩, none⟩
            :: post) st =
          load_annotations post (loadOne (load_annotations pre st)
            ⟨"ann_s1.json", some ⟨some "s1.png", none, some []⟩, none⟩)) :=
  c7_invalid_annotation_rejected ⟨some "s1.png", none, some []⟩ "ann_s1.json" none
    (Or.inr (Or.inl rfl))

/-! ### Aspect ratios in the pattern aggregator -/

/-- C8: the aspect-ratio expression of `analyze_patterns` never raises a
division error: a section whose coordinate height is not positive (in
particular height 0) contributes aspect ratio 0, and a section with height
greater than 0 contributes `width / height` rounded to two decimal places;
consequently the aspect-ratio accumulation succeeds on every catalog. -/
theorem c8_aspect_ratio_guard :
    (∀ c : Coordinates, sectionAspect c =
      some (if 0 < c.height then pyRound2 ((c.width : ℚ) / (c.height : ℚ)) else 0)) ∧
    (∀ ss : List Extracted, (aspectsOf ss).isSome = true) := by
  have h1 : ∀ c : Coordinates, sectionAspect c =
      some (if 0 < c.height then pyRound2 ((c.width : ℚ) / (c.height : ℚ)) else 0) := by
    intro c
    rw [sectionAspect]
    by_cases h : 0 < c.height
    · rw [if_pos h, if_pos h, pyDiv]
      have hne : ((c.height : Int) : ℚ) ≠ 0 := by
        have : (0 : ℚ) < ((c.height : Int) : ℚ) := by exact_mod_cast h
        exact ne_of_gt this
      rw [if_neg hne]
      rfl
    · rw [if_neg h, if_neg h]
  refine ⟨h1, ?_⟩
  intro ss
  induction ss with
  | nil => rfl
  | cons s rest ih =>
    rw [aspectsOf, h1 s.coordinates]
    cases ho : aspectsOf rest with
    | none => rw [ho] at ih; simp at ih
    | some l => simp

/-- C8 witness: a zero-height section yields aspect ratio 0 without a
division error. -/
theorem c8_witness :
    sectionAspect ⟨0, 0, 100, 0⟩ =
      some (if 0 < (0 : Int) then pyRound2 ((100 : ℚ) / (0 : ℚ)) else 0) :=
  c8_aspect_ratio_guard.1 ⟨0, 0, 100, 0⟩

/-! ### Provenance of catalog entries -/

lemma sections_provenance (src : String) (imgW imgH : Int) :
    ∀ (ps : List (SectionSpec × Bool)) (st : PipelineState) (e : Extracted),
      e ∈ (List.foldl (processSection src imgW imgH) st ps).catalog →
      e ∈ st.catalog ∨ ∃ p ∈ ps, e.coordinates = p.1.coordinates ∧
        crop_section_image imgW imgH p.1.coordinates p.2 = some e.cropped
  | [], _, _, h => Or.inl h
  | p :: ps, st, e, h => by
    rw [List.foldl_cons] at h
    rcases sections_provenance src imgW imgH ps _ e h with h1 | ⟨p', hp', hc⟩
    · cases hcrop : crop_section_image imgW imgH p.1.coordinates p.2 with
      | none =>
        rw [processSection_none hcrop] at h1
        exact Or.inl h1
      | some c =>
        rw [processSection_some hcrop] at h1
        rcases List.mem_append.mp h1 with h2 | h2
        · exact Or.inl h2
        · have he := List.mem_singleton.mp h2
          subst he
          exact Or.inr ⟨p, List.mem_cons_self _ _, rfl, hcrop⟩
    · exact Or.inr ⟨p', List.mem_cons_of_mem _ hp', hc⟩

lemma catalog_provenance :
    ∀ (anns : List AnnotationRun) (st : PipelineState) (e : Extracted),
      e ∈ (crop_sections anns st).catalog →
      e ∈ st.catalog ∨ ∃ a ∈ anns, ∃ p ∈ a.sections,
        e.coordinates = p.1.coordinates ∧
        crop_section_image a.imgWidth a.imgHeight p.1.coordinates p.2 = some e.cropped
  | [], _, _, h => Or.inl h
  | a :: anns, st, e, h => by
    rw [crop_sections, List.foldl_cons] at h
    rcases catalog_provenance anns _ e h with h1 | ⟨a', ha', hrest⟩
    · rw [processAnnotationRun] at h1
      split at h1
      · exact Or.inl h1
      · rcases sections_provenance a.source_image a.imgWidth a.imgHeight a.sections st e h1
          with h2 | ⟨p, hp, hc⟩
        · exact Or.inl h2
        · exact Or.inr ⟨a, List.mem_cons_self _ _, p, hp, hc⟩
    · exact Or.inr ⟨a', List.mem_cons_of_mem _ ha', hrest⟩

/-- C10: the pattern aggregator computes its per-type dimension pairs and
areas from each cataloged section's `coordinates` — the original annotated
width and height — and every cataloged section still carries the annotated
coordinates of the section spec it came from while its `cropped` record
holds the (possibly clamped) crop produced by `crop_section_image`: a
clamped section therefore contributes its pre-clamp width and height to the
statistics. -/
theorem c10_patterns_from_annotated_coords (anns : List AnnotationRun) :
    (∀ (t : String) (stats : TypeStats),
      analyzeSections (groupsLookup (runCrop anns).groups t) = some stats →
      stats.dims = (groupsLookup (runCrop anns).groups t).map
          (fun e => (e.coordinates.width, e.coordinates.height)) ∧
      stats.areas = (groupsLookup (runCrop anns).groups t).map
          (fun e => e.coordinates.width * e.coordinates.height)) ∧
    (∀ e ∈ (runCrop anns).catalog, ∃ a ∈ anns, ∃ p ∈ a.sections,
      e.coordinates = p.1.coordinates ∧
      crop_section_image a.imgWidth a.imgHeight p.1.coordinates p.2 = some e.cropped) := by
  constructor
  · intro t stats h
    rw [analyzeSections] at h
    cases ho : aspectsOf (groupsLookup (runCrop anns).groups t) with
    | none =>
      rw [ho] at h
      exact absurd h (by simp)
    | some asps =>
      rw [ho] at h
      injection h with h'
      subst h'
      exact ⟨rfl, rfl⟩
  · intro e he
    rcases catalog_provenance anns initState e he with h1 | h2
    · exact absurd h1 (by simp [initState])
    · exact h2

/-- C10 witness: a 1200x300 section annotated on a 1000-wide screenshot is
clamped to a 1000x300 crop, yet its pattern-statistics contribution is the
pre-clamp pair (1200, 300) and area 360000. -/
theorem c10_witness :
    ([((1200 : Int), (300 : Int))] =
      (groupsLookup (runCrop [⟨"s.png", 1000, 2000, false,
          [(⟨"a", "Hero Banner", ⟨0, 0, 1200, 300⟩⟩, false)]⟩]).groups "Hero Banner").map
        (fun e => (e.coordinates.width, e.coordinates.height)) ∧
     [(360000 : Int)] =
      (groupsLookup (runCrop [⟨"s.png", 1000, 2000, false,
          [(⟨"a", "Hero Banner", ⟨0, 0, 1200, 300⟩⟩, false)]⟩]).groups "Hero Banner").map
        (fun e => e.coordinates.width * e.coordinates.height)) ∧
    (∃ a ∈ [(⟨"s.png", 1000, 2000, false,
        [(⟨"a", "Hero Banner", ⟨0, 0, 1200, 300⟩⟩, false)]⟩ : AnnotationRun)],
      ∃ p ∈ a.sections, (⟨0, 0, 1200, 300⟩ : Coordinates) = p.1.coordinates ∧
        crop_section_image a.imgWidth a.imgHeight p.1.coordinates p.2 =
          some ⟨0, 0, 1000, 300, calculate_resize (1000, 300) (400, 300),
            calculate_resize (1000, 300) (200, 150)⟩) := by
  constructor
  · exact (c10_patterns_from_annotated_coords [⟨"s.png", 1000, 2000, false,
      [(⟨"a", "Hero Banner", ⟨0, 0, 1200, 300⟩⟩, false)]⟩]).1 "Hero Banner"
      ⟨1, [(1200, 300)], [pyRound2 (((1200 : Int) : ℚ) / ((300 : Int) : ℚ))], [360000],
        ((360000 : Int) : ℚ) / ((1 : Nat) : ℚ), 360000, 360000⟩ rfl
  · exact (c10_patterns_from_annotated_coords [⟨"s.png", 1000, 2000, false,
      [(⟨"a", "Hero Banner", ⟨0, 0, 1200, 300⟩⟩, false)]⟩]).2
      ⟨"a", "Hero Banner", ⟨0, 0, 1200, 300⟩, "hero_banner_0001", "s.png",
        ⟨0, 0, 1000, 300, calculate_resize (1000, 300) (400, 300),
          calculate_resize (1000, 300) (200, 150)⟩⟩
      (List.mem_singleton.mpr rfl)

end SectionProcessor
